import Mathlib

/-!
Verification of the InkSight graphology core: a shallow embedding of
`src/graphology_module.py` (feature extraction from word bounding boxes and
rule-based personality scoring), with theorems settling the specification
claims about it.

Modelling conventions:
* Pixel intensities, coordinates and all derived statistics are rationals
  (`ℚ`); the Python code computes with exact ints and floats on the inputs
  the claims exercise.
* The OpenCV calls (`findContours`, `dilate`, `boundingRect`, `minAreaRect`)
  are external library code, not part of this repository.  The extractor is
  therefore embedded from the point the source consumes their results: the
  list of grayscale values at ink pixels (`gray_image[binary_image == 255]`)
  and the list of word contours, each abstracted as its bounding rectangle
  together with the raw `minAreaRect` angle.  The source's early return on
  `not contours` fires exactly when the mask has no 255 pixel, which is
  exactly when the ink-pixel list is empty, so it is modelled by that test.
* `numpy` aggregations that would yield NaN (mean/median of an empty array)
  are modelled as `Option.none`; the extractor returns `Option FeatureVector`
  and `none` represents "a NaN reached the output".
-/

namespace InkSight

/-- A word bounding box `(x, y, w, h)` as produced by `cv2.boundingRect`,
origin top-left. -/
structure Box where
  x : ℚ
  y : ℚ
  w : ℚ
  h : ℚ
deriving DecidableEq, Repr

/-- A word contour, abstracted as its bounding rectangle plus the raw angle
reported by `cv2.minAreaRect` for that contour. -/
structure RawWord where
  x : ℚ
  y : ℚ
  w : ℚ
  h : ℚ
  rawAngle : ℚ
deriving DecidableEq, Repr

/-- The `features` dict of `extract_graphological_features`, lines 12-15 of
the source: exactly seven named scalar entries, each defaulting to 0. -/
structure FeatureVector where
  pressure : ℚ := 0
  letter_size : ℚ := 0
  slant : ℚ := 0
  baseline_slope : ℚ := 0
  word_spacing : ℚ := 0
  line_spacing : ℚ := 0
  left_margin : ℚ := 0
deriving DecidableEq, Repr

/-- The seven feature keys, in the order the source dict declares them. -/
def FeatureVector.toDict (f : FeatureVector) : List (String × ℚ) :=
  [("pressure", f.pressure), ("letter_size", f.letter_size), ("slant", f.slant),
   ("baseline_slope", f.baseline_slope), ("word_spacing", f.word_spacing),
   ("line_spacing", f.line_spacing), ("left_margin", f.left_margin)]

/-- `np.median` on a nonempty list: sort, take the middle element (odd
length) or the mean of the two middle elements (even length).  On the empty
list this returns 0; callers that need the NaN behaviour use `medianQ`. -/
def median0 (l : List ℚ) : ℚ :=
  let s := List.insertionSort (· ≤ ·) l
  if l.length % 2 = 1 then s.getD (l.length / 2) 0
  else (s.getD (l.length / 2 - 1) 0 + s.getD (l.length / 2) 0) / 2

/-- `np.median`, with NaN-on-empty modelled as `none`. -/
def medianQ (l : List ℚ) : Option ℚ :=
  if l.isEmpty then none else some (median0 l)

/-- `np.mean` on a nonempty list. -/
def mean0 (l : List ℚ) : ℚ := l.sum / (l.length : ℚ)

/-- `np.mean`, with NaN-on-empty modelled as `none`. -/
def meanQ (l : List ℚ) : Option ℚ :=
  if l.isEmpty then none else some (mean0 l)

/-- The source pattern `if samples: features[k] = np.median(samples)`
(features default to 0): a median guarded by a nonemptiness test. -/
def guardedMedian (l : List ℚ) : Option ℚ :=
  if l.isEmpty then some 0 else medianQ l

/-- Total version of `guardedMedian`, used to state what the extractor
computes. -/
def gmedian (l : List ℚ) : ℚ :=
  if l.isEmpty then 0 else median0 l

/-- `np.diff`: successive differences. -/
def diffs (l : List ℚ) : List ℚ :=
  (l.zip l.tail).map fun p => p.2 - p.1

/-! ## Word box processing (source lines 29-58) -/

/-- The noise filter of line 40: keep a contour only if `w > 10 and h > 10`. -/
def sizeFiltered (rw : List RawWord) : List RawWord :=
  rw.filter fun c => decide (c.w > 10) && decide (c.h > 10)

/-- Angle adjustment, lines 46-48: if the box is taller than wide
(`w < h`), add 90 to the raw `minAreaRect` angle. -/
def adjAngle (c : RawWord) : ℚ :=
  if c.w < c.h then 90 + c.rawAngle else c.rawAngle

/-- The slant samples, lines 44-50: adjusted angles of the size-retained
contours whose absolute value is strictly below 45. -/
def wordAngles (rw : List RawWord) : List ℚ :=
  ((sizeFiltered rw).map adjAngle).filter fun a => decide (|a| < 45)

/-- The bounding box of a retained contour (line 39/41). -/
def RawWord.toBox (c : RawWord) : Box := ⟨c.x, c.y, c.w, c.h⟩

/-- Line 58: stable sort of the word boxes by `(y, x)` ascending. -/
def sortBoxes (bs : List Box) : List Box :=
  List.insertionSort (fun a b => a.y < b.y ∨ (a.y = b.y ∧ a.x ≤ b.x)) bs

/-- `sorted(current_line, key=lambda b: b[0])` (lines 75 and 80): stable sort
of a line's boxes by `x` ascending. -/
def sortByX (l : List Box) : List Box :=
  List.insertionSort (fun a b => a.x ≤ b.x) l

/-! ## Greedy line grouping (source lines 68-80) -/

/-- One pass of the grouping loop: `current` is `current_line`, `curY` is
`current_y`, `acc` is `lines_of_words`.  A new line starts exactly when the
next box's `y` differs from `curY` by more than `0.7` times that box's own
height; the final `current` line is appended after the loop. -/
def groupLinesAux : List Box → List Box → ℚ → List (List Box) → List (List Box)
  | [], current, _, acc => acc ++ [sortByX current]
  | b :: rest, current, curY, acc =>
    if |b.y - curY| > b.h * 0.7 then
      groupLinesAux rest [b] b.y (acc ++ [sortByX current])
    else
      groupLinesAux rest (current ++ [b]) curY acc

/-- Lines 68-80: partition the `(y, x)`-sorted word boxes into lines.  The
source only runs this when the box list is nonempty (`current_y` is the first
box's `y`); on the empty list it is never reached and we return no lines. -/
def groupLines : List Box → List (List Box)
  | [] => []
  | b :: rest => groupLinesAux (b :: rest) [] b.y []

/-! ## Per-line statistics (source lines 84-118) -/

/-- Word gaps of one line, lines 92-97: for each adjacent pair, the gap
`next.x - (prev.x + prev.w)`, kept only when strictly positive. -/
def gapsOfLine (l : List Box) : List ℚ :=
  (l.zip l.tail).filterMap fun p =>
    if p.2.x - (p.1.x + p.1.w) > 0 then some (p.2.x - (p.1.x + p.1.w)) else none

/-- Bottom-center point of a word box, lines 101-102: `(x + w/2, y + h)`. -/
def bottomCenter (b : Box) : ℚ × ℚ := (b.x + b.w / 2, b.y + b.h)

/-- Degree-1 least-squares slope, modelling `np.polyfit(points_x, points_y, 1)`
(line 104) in closed form: `(n·Σxy - Σx·Σy) / (n·Σx² - (Σx)²)`.  The source
only calls this with at least two points.  When all x-coordinates coincide the
denominator is 0 and this yields 0, while numpy's least-squares routine yields
some other finite value; no claim depends on that degenerate case, and both
are finite. -/
def lsqSlope (pts : List (ℚ × ℚ)) : ℚ :=
  let n : ℚ := pts.length
  let sx := (pts.map Prod.fst).sum
  let sy := (pts.map Prod.snd).sum
  let sxy := (pts.map fun p => p.1 * p.2).sum
  let sxx := (pts.map fun p => p.1 * p.1).sum
  (n * sxy - sx * sy) / (n * sxx - sx * sx)

/-- Per-line baseline slope sample, lines 101-105: fitted only when the line
has strictly more than one word. -/
def slopeOfLine (l : List Box) : Option ℚ :=
  if 1 < l.length then some (lsqSlope (l.map bottomCenter)) else none

/-- Per-line bottom-center y list, recorded (line 106) only when the line has
strictly more than one word. -/
def ptsYOfLine (l : List Box) : Option (List ℚ) :=
  if 1 < l.length then some (l.map fun b => b.y + b.h) else none

/-- Medians of the recorded per-line y lists (`line_y_coords`, line 106),
propagating the NaN of an empty median as `none`. -/
def collectMedians : List (List ℚ) → Option (List ℚ)
  | [] => some []
  | l :: rest => (medianQ l).bind fun m => (collectMedians rest).map fun ms => m :: ms

/-- Pen-pressure proxy, lines 25-27: mean gray value of the ink pixels,
guarded by `ink_pixels.any()`, i.e. by "some selected value is nonzero". -/
def pressureOf (ink : List ℚ) : ℚ :=
  if ink.any fun g => decide (g ≠ 0) then mean0 ink else 0

/-! ## The feature extractor (source lines 7-120) -/

/-- The `(y, x)`-sorted retained word boxes (`word_bboxes` after line 58). -/
def wordBoxes (rw : List RawWord) : List Box :=
  sortBoxes ((sizeFiltered rw).map RawWord.toBox)

/-- The grouped lines that survive the `if not line: continue` guard of
line 85. -/
def keptLines (rw : List RawWord) : List (List Box) :=
  (groupLines (wordBoxes rw)).filter fun l => !l.isEmpty

/-- `extract_graphological_features`, embedded from the source.  Inputs are
the gray values at ink pixels and the word contours (see the module header);
the unused `lines` parameter of the source is omitted.  `none` would mean a
NaN from an unguarded empty aggregation reached the returned dict. -/
def extract_graphological_features (ink : List ℚ) (rw : List RawWord) :
    Option FeatureVector :=
  if ink.isEmpty then some {} else
  (if ink.any fun g => decide (g ≠ 0) then meanQ ink else some 0).bind fun pr =>
  (guardedMedian ((sizeFiltered rw).map RawWord.h)).bind fun ls =>
  (guardedMedian (wordAngles rw)).bind fun sl =>
  if (wordBoxes rw).isEmpty then
    some { pressure := pr, letter_size := ls, slant := sl }
  else
    (guardedMedian ((keptLines rw).flatMap gapsOfLine)).bind fun ws =>
    (guardedMedian ((keptLines rw).filterMap fun l => l.head?.map Box.x)).bind fun lm =>
    (guardedMedian ((keptLines rw).filterMap slopeOfLine)).bind fun bs =>
    (collectMedians ((keptLines rw).filterMap ptsYOfLine)).bind fun ys =>
    (guardedMedian (diffs ys)).map fun lsp =>
      { pressure := pr, letter_size := ls, slant := sl, baseline_slope := bs,
        word_spacing := ws, line_spacing := lsp, left_margin := lm }

/-- The value `extract_graphological_features` computes, written with the
total statistics; `extract_eq_some` below proves the two agree, which is the
"no NaN ever escapes" fact. -/
def extractVal (ink : List ℚ) (rw : List RawWord) : FeatureVector :=
  if ink.isEmpty then {} else
  if (wordBoxes rw).isEmpty then
    { pressure := pressureOf ink,
      letter_size := gmedian ((sizeFiltered rw).map RawWord.h),
      slant := gmedian (wordAngles rw) }
  else
    { pressure := pressureOf ink,
      letter_size := gmedian ((sizeFiltered rw).map RawWord.h),
      slant := gmedian (wordAngles rw),
      baseline_slope := gmedian ((keptLines rw).filterMap slopeOfLine),
      word_spacing := gmedian ((keptLines rw).flatMap gapsOfLine),
      line_spacing := gmedian (diffs (((keptLines rw).filterMap ptsYOfLine).map median0)),
      left_margin := gmedian ((keptLines rw).filterMap fun l => l.head?.map Box.x) }

/-! ## The personality scorer (source lines 123-204) -/

/-- The `quantitative` dict: six trait scores, each default-initialised to
0.5 (lines 128-131). -/
structure Quant where
  sociability : ℚ := 0.5
  focus : ℚ := 0.5
  intensity : ℚ := 0.5
  optimism : ℚ := 0.5
  discipline : ℚ := 0.5
  spontaneity : ℚ := 0.5
deriving DecidableEq, Repr

/-- The `descriptive` dict.  The keys `Outlook`, `Focus`, `Intensity` and
`Mood` are set on every path; `Social Type` and `Planning` only when their
rule fires, hence `Option`. -/
structure Descriptive where
  outlook : String
  socialType : Option String
  focus : String
  intensity : String
  mood : String
  planning : Option String
deriving DecidableEq, Repr

/-- `np.clip(v, lo, hi)` (line 202). -/
def clip (v lo hi : ℚ) : ℚ :=
  if v < lo then lo else if hi < v then hi else v

/-- The rule table of `get_personality_profile`, lines 134-204, over the six
feature values the source reads (`line_spacing` is never read).  Rules are
applied in source order; the word-spacing rule adjusts the Sociability value
set by the slant rule, the slant rule for Discipline adds to the value set by
the baseline rule, and every score is clipped to `[0.1, 1.0]` at the end. -/
def scoreRules (slant word_spacing letter_size pressure baseline_slope left_margin : ℚ) :
    Quant × Descriptive :=
  let soc0 : ℚ := if slant > 5 then 0.8 else if slant < -5 then 0.2 else 0.4
  let outlook : String :=
    if slant > 5 then "Sociable, expressive, approach-oriented."
    else if slant < -5 then "Reserved, withdrawn, avoids conflict."
    else "Controlled, independent, balanced."
  let soc1 : ℚ :=
    if word_spacing > letter_size then soc0 - 0.1
    else if word_spacing < letter_size * 0.5 then soc0 + 0.2
    else soc0
  let socialType : Option String :=
    if word_spacing > letter_size then some "Values space, independent."
    else if word_spacing < letter_size * 0.5 then some "Sociable, seeks closeness."
    else none
  let focusQ : ℚ := if letter_size > 50 then 0.3 else if letter_size < 25 then 0.9 else 0.5
  let focusD : String :=
    if letter_size > 50 then "Outgoing, assertive, big-picture oriented."
    else if letter_size < 25 then "Focused, introverted, detail-oriented."
    else "Balanced and adaptable."
  let intensityQ : ℚ := if pressure < 120 then 0.8 else if pressure > 180 then 0.2 else 0.5
  let intensityD : String :=
    if pressure < 120 then "Intense, forceful, high energy."
    else if pressure > 180 then "Sensitive, empathetic, low arousal."
    else "Balanced emotional intensity."
  let optimismQ : ℚ :=
    if baseline_slope < -0.05 then 0.2 else if baseline_slope > 0.05 then 0.8 else 0.5
  let moodD : String :=
    if baseline_slope < -0.05 then "Pessimistic, tired, or discouraged."
    else if baseline_slope > 0.05 then "Optimistic, energetic, ambitious."
    else "Steady, balanced, and stable."
  let disc0 : ℚ := if -0.05 ≤ baseline_slope ∧ baseline_slope ≤ 0.05 then 0.8 else 0.3
  let disc1 : ℚ := if -5 ≤ slant ∧ slant ≤ 5 then disc0 + 0.2 else disc0
  let spontQ : ℚ := if left_margin > 40 then 0.2 else if left_margin < 20 then 0.9 else 0.5
  let planning : Option String :=
    if left_margin > 40 then some "Cautious, planned, looks to the future."
    else if left_margin < 20 then some "Spontaneous, impulsive, lives in the moment."
    else none
  (⟨clip soc1 0.1 1, clip focusQ 0.1 1, clip intensityQ 0.1 1,
    clip optimismQ 0.1 1, clip disc1 0.1 1, clip spontQ 0.1 1⟩,
   ⟨outlook, socialType, focusD, intensityD, moodD, planning⟩)

/-- `get_personality_profile` over a FeatureVector, lines 123-204. -/
def get_personality_profile (f : FeatureVector) : Quant × Descriptive :=
  scoreRules f.slant f.word_spacing f.letter_size f.pressure f.baseline_slope f.left_margin

/-- Python dict lookup `features[k]`: `none` models a `KeyError`. -/
def lookupFeat (d : List (String × ℚ)) (k : String) : Option ℚ :=
  (d.find? fun p => p.1 == k).map Prod.snd

/-- State-passing embedding of `get_personality_profile` over the features
dict itself: every access the source makes is a read (`features[...]` never
appears on the left of an assignment), so the dict observable after the call
is returned unchanged alongside the result. -/
def get_personality_profile_dict (d : List (String × ℚ)) :
    Option ((Quant × Descriptive) × List (String × ℚ)) :=
  (lookupFeat d "slant").bind fun sl =>
  (lookupFeat d "word_spacing").bind fun ws =>
  (lookupFeat d "letter_size").bind fun ls =>
  (lookupFeat d "pressure").bind fun pr =>
  (lookupFeat d "baseline_slope").bind fun bs =>
  (lookupFeat d "left_margin").bind fun lm =>
  some (scoreRules sl ws ls pr bs lm, d)

/-- The full core pipeline: feature extraction followed by scoring. -/
def runPipeline (ink : List ℚ) (rw : List RawWord) :
    Option (FeatureVector × Quant × Descriptive) :=
  (extract_graphological_features ink rw).map fun fv => (fv, get_personality_profile fv)

/-! ## Helper lemmas -/

theorem clip_bounds (v lo hi : ℚ) (h : lo ≤ hi) :
    lo ≤ clip v lo hi ∧ clip v lo hi ≤ hi := by
  unfold clip
  split_ifs with h1 h2
  · exact ⟨le_refl _, h⟩
  · exact ⟨h, le_refl _⟩
  · exact ⟨le_of_not_lt h1, le_of_not_lt h2⟩

theorem mem_of_mem_insertionSort {l : List ℚ} {a : ℚ}
    (h : a ∈ List.insertionSort (· ≤ ·) l) : a ∈ l :=
  (List.perm_insertionSort (· ≤ ·) l).mem_iff.mp h

/-- The median of a nonempty list whose elements all have absolute value
below `c` itself has absolute value below `c`. -/
theorem median0_abs_lt {l : List ℚ} (hne : l ≠ []) {c : ℚ}
    (hall : ∀ a ∈ l, |a| < c) : |median0 l| < c := by
  have hperm := List.perm_insertionSort (· ≤ ·) l
  set s := List.insertionSort (· ≤ ·) l with hs
  have hlen : s.length = l.length := hperm.length_eq
  have hget : ∀ i, i < s.length → |s.getD i 0| < c := by
    intro i hi
    rw [List.getD_eq_getElem?_getD, List.getElem?_eq_getElem hi, Option.getD_some]
    exact hall _ (hperm.mem_iff.mp (s.getElem_mem hi))
  have hlpos : 0 < l.length := List.length_pos.mpr hne
  unfold median0
  rw [← hs]
  split_ifs with hodd
  · exact hget _ (by omega)
  · have h2 : 2 ≤ l.length := by omega
    have hi1 : l.length / 2 - 1 < s.length := by omega
    have hi2 : l.length / 2 < s.length := by omega
    have b1 := hget _ hi1
    have b2 := hget _ hi2
    rw [abs_div]
    have : |(2 : ℚ)| = 2 := by norm_num
    rw [this]
    have := abs_add (s.getD (l.length / 2 - 1) 0) (s.getD (l.length / 2) 0)
    linarith

theorem guardedMedian_eq (l : List ℚ) : guardedMedian l = some (gmedian l) := by
  unfold guardedMedian gmedian medianQ
  split_ifs <;> rfl

theorem medianQ_of_ne_nil {l : List ℚ} (h : l ≠ []) : medianQ l = some (median0 l) := by
  unfold medianQ
  rw [if_neg]
  simpa [List.isEmpty_iff] using h

theorem collectMedians_eq {ls : List (List ℚ)} (h : ∀ l ∈ ls, l ≠ []) :
    collectMedians ls = some (ls.map median0) := by
  induction ls with
  | nil => rfl
  | cons a as ih =>
    have ha : a ≠ [] := h a (by simp)
    simp [collectMedians, medianQ_of_ne_nil ha, ih fun l hl => h l (by simp [hl])]

theorem ptsYOfLine_ne_nil {l : List Box} {m : List ℚ}
    (h : ptsYOfLine l = some m) : m ≠ [] := by
  unfold ptsYOfLine at h
  split_ifs at h with hlen
  · injection h with h'
    subst h'
    cases l with
    | nil => simp at hlen
    | cons a t => simp

theorem pressure_step (ink : List ℚ) :
    (if ink.any fun g => decide (g ≠ 0) then meanQ ink else some 0) =
      some (pressureOf ink) := by
  unfold meanQ pressureOf
  split_ifs with h1 h2
  · exfalso
    rw [List.isEmpty_iff] at h2
    subst h2
    simp at h1
  · rfl
  · rfl

/-- The extractor never returns `none`: every statistic the source computes is
guarded by a nonemptiness test, so no NaN escapes into the feature dict. -/
theorem extract_eq_some (ink : List ℚ) (rw : List RawWord) :
    extract_graphological_features ink rw = some (extractVal ink rw) := by
  unfold extract_graphological_features extractVal
  by_cases hink : ink.isEmpty
  · rw [if_pos hink, if_pos hink]
  · rw [if_neg hink, if_neg hink, pressure_step, Option.some_bind,
      guardedMedian_eq, Option.some_bind, guardedMedian_eq, Option.some_bind]
    by_cases hbb : (wordBoxes rw).isEmpty
    · rw [if_pos hbb, if_pos hbb]
    · rw [if_neg hbb, if_neg hbb]
      have hys : ∀ m ∈ (keptLines rw).filterMap ptsYOfLine, m ≠ [] := by
        intro m hm
        obtain ⟨l, _, hsome⟩ := List.mem_filterMap.mp hm
        exact ptsYOfLine_ne_nil hsome
      rw [guardedMedian_eq, Option.some_bind, guardedMedian_eq, Option.some_bind,
        guardedMedian_eq, Option.some_bind, collectMedians_eq hys, Option.some_bind,
        guardedMedian_eq, Option.map_some']

/-! ## Claim theorems -/

/-- Claim C1: for every input FeatureVector, including adversarial extreme
values (pressure 0, slant 90, left_margin 10000, ...), each of the six
quantitative trait scores returned by `get_personality_profile` lies within
`[0.1, 1.0]` inclusive. -/
theorem C1_quant_scores_in_range (f : FeatureVector) :
    (0.1 ≤ (get_personality_profile f).1.sociability ∧
      (get_personality_profile f).1.sociability ≤ 1) ∧
    (0.1 ≤ (get_personality_profile f).1.focus ∧
      (get_personality_profile f).1.focus ≤ 1) ∧
    (0.1 ≤ (get_personality_profile f).1.intensity ∧
      (get_personality_profile f).1.intensity ≤ 1) ∧
    (0.1 ≤ (get_personality_profile f).1.optimism ∧
      (get_personality_profile f).1.optimism ≤ 1) ∧
    (0.1 ≤ (get_personality_profile f).1.discipline ∧
      (get_personality_profile f).1.discipline ≤ 1) ∧
    (0.1 ≤ (get_personality_profile f).1.spontaneity ∧
      (get_personality_profile f).1.spontaneity ≤ 1) :=
  ⟨clip_bounds _ _ _ (by norm_num), clip_bounds _ _ _ (by norm_num),
   clip_bounds _ _ _ (by norm_num), clip_bounds _ _ _ (by norm_num),
   clip_bounds _ _ _ (by norm_num), clip_bounds _ _ _ (by norm_num)⟩

/-- Claim C2 counterexample: on the all-default FeatureVector (every feature
0), the quantitative profile is NOT "all 0.5 except Sociability = 0.4": with
all features 0, letter_size 0 < 25 sets Focus to 0.9, pressure 0 < 120 sets
Intensity to 0.8, the straight baseline plus vertical slant push Discipline
to 1.0, and left_margin 0 < 20 sets Spontaneity to 0.9. -/
theorem C2_blank_profile_counterexample :
    (get_personality_profile {}).1 ≠
      { sociability := 0.4, focus := 0.5, intensity := 0.5,
        optimism := 0.5, discipline := 0.5, spontaneity := 0.5 } := by
  have h : (get_personality_profile {}).1 =
      { sociability := 0.4, focus := 0.9, intensity := 0.8,
        optimism := 0.5, discipline := 1, spontaneity := 0.9 } := by
    norm_num [get_personality_profile, scoreRules, clip]
  rw [h]
  simp only [ne_eq, Quant.mk.injEq]
  norm_num

/-- Claim C2 amended: an all-blank input (no ink pixels, hence no contours)
yields the all-default FeatureVector, and on it `get_personality_profile`
returns Sociability 0.4 (else-branch of the slant rule), Focus 0.9
(letter_size 0 < 25), Intensity 0.8 (pressure 0 < 120), Optimism 0.5,
Discipline 1.0 (0.8 + 0.2, clamped), Spontaneity 0.9 (left_margin 0 < 20). -/
theorem C2_blank_profile_amended :
    extract_graphological_features [] [] = some {} ∧
    (get_personality_profile {}).1 =
      { sociability := 0.4, focus := 0.9, intensity := 0.8,
        optimism := 0.5, discipline := 1, spontaneity := 0.9 } := by
  constructor
  · rfl
  · norm_num [get_personality_profile, scoreRules, clip]

/-- Claim C3 counterexample: on the FeatureVector of the scenario
(slant 8, word_spacing 5, letter_size 30, pressure 100, baseline_slope 0.08,
left_margin 50), Sociability is not 0.8: the spacing rule DOES fire, since
word_spacing 5 < letter_size * 0.5 = 15, adding 0.2 to the 0.8 set by the
slant rule, clamped to 1.0. -/
theorem C3_scenario_counterexample :
    (get_personality_profile ⟨100, 30, 8, 0.08, 5, 0, 50⟩).1.sociability ≠ 0.8 := by
  have h : (get_personality_profile ⟨100, 30, 8, 0.08, 5, 0, 50⟩).1.sociability = 1 := by
    norm_num [get_personality_profile, scoreRules, clip]
  rw [h]
  norm_num

/-- Claim C3 amended: on the scenario FeatureVector the quantitative scores
are Sociability 1.0 (0.8 from slant > 5, +0.2 from the narrow-spacing rule
because 5 < 30 * 0.5, clamped to 1.0), Focus 0.5, Intensity 0.8,
Optimism 0.8, Discipline 0.3, Spontaneity 0.2. -/
theorem C3_scenario_amended :
    (get_personality_profile ⟨100, 30, 8, 0.08, 5, 0, 50⟩).1 =
      { sociability := 1, focus := 0.5, intensity := 0.8,
        optimism := 0.8, discipline := 0.3, spontaneity := 0.2 } := by
  norm_num [get_personality_profile, scoreRules, clip]

/-- Claim C4: the greedy partition groups boxes at y 0, 2, 50, 52 (height 20
each) into two lines of two words, and splits boxes at y 0 and 16 (height 20)
into two separate lines, because 16 > 0.7 * 20 = 14. -/
theorem C4_line_grouping :
    groupLines [⟨0, 0, 20, 20⟩, ⟨5, 2, 20, 20⟩, ⟨0, 50, 20, 20⟩, ⟨5, 52, 20, 20⟩] =
      [[⟨0, 0, 20, 20⟩, ⟨5, 2, 20, 20⟩], [⟨0, 50, 20, 20⟩, ⟨5, 52, 20, 20⟩]] ∧
    groupLines [⟨0, 0, 20, 20⟩, ⟨0, 16, 20, 20⟩] =
      [[⟨0, 0, 20, 20⟩], [⟨0, 16, 20, 20⟩]] := by
  constructor <;>
    norm_num [groupLines, groupLinesAux, sortByX, List.insertionSort,
      List.orderedInsert, abs]

/-- Claim C9: the pipeline is deterministic — two invocations of feature
extraction followed by scoring on equal inputs produce equal FeatureVectors
and equal TraitProfiles; the embedding is a pure function of its inputs. -/
theorem C9_pipeline_deterministic (ink₁ ink₂ : List ℚ) (rw₁ rw₂ : List RawWord)
    (f₁ f₂ : FeatureVector) (hink : ink₁ = ink₂) (hrw : rw₁ = rw₂) (hf : f₁ = f₂) :
    runPipeline ink₁ rw₁ = runPipeline ink₂ rw₂ ∧
    extract_graphological_features ink₁ rw₁ = extract_graphological_features ink₂ rw₂ ∧
    get_personality_profile f₁ = get_personality_profile f₂ := by
  subst hink
  subst hrw
  subst hf
  exact ⟨rfl, rfl, rfl⟩

theorem C9_pipeline_deterministic_witness :
    runPipeline [200] [⟨12, 5, 60, 60, 0⟩] = runPipeline [200] [⟨12, 5, 60, 60, 0⟩] ∧
    extract_graphological_features [200] [⟨12, 5, 60, 60, 0⟩] =
      extract_graphological_features [200] [⟨12, 5, 60, 60, 0⟩] ∧
    get_personality_profile {} = get_personality_profile {} :=
  C9_pipeline_deterministic [200] [200] [⟨12, 5, 60, 60, 0⟩] [⟨12, 5, 60, 60, 0⟩]
    {} {} rfl rfl rfl

/-- Claim C10: `get_personality_profile` never mutates its input dict.  In
the state-passing embedding, whenever the call succeeds the features mapping
observable afterwards is exactly the mapping passed in: the source only reads
`features[...]` and writes to freshly created dicts. -/
theorem C10_input_not_mutated (d : List (String × ℚ))
    (out : (Quant × Descriptive) × List (String × ℚ))
    (h : get_personality_profile_dict d = some out) : out.2 = d := by
  unfold get_personality_profile_dict at h
  rcases Option.bind_eq_some.mp h with ⟨v1, _, h⟩
  rcases Option.bind_eq_some.mp h with ⟨v2, _, h⟩
  rcases Option.bind_eq_some.mp h with ⟨v3, _, h⟩
  rcases Option.bind_eq_some.mp h with ⟨v4, _, h⟩
  rcases Option.bind_eq_some.mp h with ⟨v5, _, h⟩
  rcases Option.bind_eq_some.mp h with ⟨v6, _, h⟩
  injection h with h'
  rw [← h']

theorem C10_input_not_mutated_witness :
    ((scoreRules 0 0 0 0 0 0,
      [("pressure", (0 : ℚ)), ("letter_size", 0), ("slant", 0), ("baseline_slope", 0),
       ("word_spacing", 0), ("line_spacing", 0), ("left_margin", 0)]) :
        (Quant × Descriptive) × List (String × ℚ)).2 =
      [("pressure", (0 : ℚ)), ("letter_size", 0), ("slant", 0), ("baseline_slope", 0),
       ("word_spacing", 0), ("line_spacing", 0), ("left_margin", 0)] :=
  C10_input_not_mutated
    [("pressure", (0 : ℚ)), ("letter_size", 0), ("slant", 0), ("baseline_slope", 0),
     ("word_spacing", 0), ("line_spacing", 0), ("left_margin", 0)] _ rfl

/-- Claim C5: for every valid input, the extractor returns a mapping with
exactly the seven keys pressure, letter_size, slant, baseline_slope,
word_spacing, line_spacing, left_margin, and every value is a finite number:
the `none` that models a NaN escaping an aggregation never occurs, because
every statistic is guarded. -/
theorem C5_seven_finite_features (ink : List ℚ) (rw : List RawWord) :
    extract_graphological_features ink rw = some (extractVal ink rw) ∧
    (extractVal ink rw).toDict.map Prod.fst =
      ["pressure", "letter_size", "slant", "baseline_slope",
       "word_spacing", "line_spacing", "left_margin"] :=
  ⟨extract_eq_some ink rw, rfl⟩

/-- Claim C6: degenerate input is not an error.  The extractor always
returns a value; with no ink (hence no contours) every feature is the
default 0; when no word box passes the size filter the other features stay 0
while pressure is still computed; when every grouped line has fewer than 2
words, baseline_slope and line_spacing stay 0; and when fewer than 2 lines
qualify (at most one line has 2 or more words, hence records a y position —
`(keptLines rw).filterMap ptsYOfLine` has at most one entry), line_spacing
stays 0 while the other features, baseline_slope included, are still
computed. -/
theorem C6_degenerate_inputs_yield_defaults (ink : List ℚ) (rw : List RawWord) :
    (extract_graphological_features ink rw).isSome = true ∧
    (ink = [] → extract_graphological_features ink rw = some {}) ∧
    (ink ≠ [] → sizeFiltered rw = [] →
      extract_graphological_features ink rw = some { pressure := pressureOf ink }) ∧
    (ink ≠ [] → (∀ l ∈ keptLines rw, l.length < 2) →
      ∃ fv, extract_graphological_features ink rw = some fv ∧
        fv.baseline_slope = 0 ∧ fv.line_spacing = 0) ∧
    (ink ≠ [] → ((keptLines rw).filterMap ptsYOfLine).length ≤ 1 →
      ∃ fv, extract_graphological_features ink rw = some fv ∧ fv.line_spacing = 0) := by
  have hmain := extract_eq_some ink rw
  refine ⟨by rw [hmain]; rfl, fun hink => by subst hink; rfl, ?_, ?_, ?_⟩
  · intro hink hsf
    rw [hmain]
    have hie : ¬(ink.isEmpty = true) := by simpa [List.isEmpty_iff] using hink
    unfold extractVal
    rw [if_neg hie]
    have hwb : wordBoxes rw = [] := by
      unfold wordBoxes
      rw [hsf]
      rfl
    rw [hwb]
    simp [wordAngles, hsf, gmedian]
  · intro hink hlen
    refine ⟨extractVal ink rw, hmain, ?_, ?_⟩ <;>
      · have hie : ¬(ink.isEmpty = true) := by simpa [List.isEmpty_iff] using hink
        unfold extractVal
        rw [if_neg hie]
        by_cases hbb : (wordBoxes rw).isEmpty
        · rw [if_pos hbb]
        · rw [if_neg hbb]
          have hsl : (keptLines rw).filterMap slopeOfLine = [] := by
            rw [List.filterMap_eq_nil_iff]
            intro l hl
            unfold slopeOfLine
            rw [if_neg]
            have := hlen l hl
            omega
          have hpy : (keptLines rw).filterMap ptsYOfLine = [] := by
            rw [List.filterMap_eq_nil_iff]
            intro l hl
            unfold ptsYOfLine
            rw [if_neg]
            have := hlen l hl
            omega
          simp [hsl, hpy, gmedian, diffs]
  · intro hink hcount
    refine ⟨extractVal ink rw, hmain, ?_⟩
    have hie : ¬(ink.isEmpty = true) := by simpa [List.isEmpty_iff] using hink
    unfold extractVal
    rw [if_neg hie]
    by_cases hbb : (wordBoxes rw).isEmpty
    · rw [if_pos hbb]
    · rw [if_neg hbb]
      have hys : diffs (((keptLines rw).filterMap ptsYOfLine).map median0) = [] := by
        have hlen1 : (((keptLines rw).filterMap ptsYOfLine).map median0).length ≤ 1 := by
          simpa using hcount
        cases hl : ((keptLines rw).filterMap ptsYOfLine).map median0 with
        | nil => rfl
        | cons m t =>
          cases t with
          | nil => rfl
          | cons m' t' =>
            rw [hl] at hlen1
            simp at hlen1
      simp [hys, gmedian]

theorem C6_degenerate_inputs_yield_defaults_witness :
    extract_graphological_features [] [] = some {} ∧
    extract_graphological_features [(150 : ℚ)] [⟨0, 0, 5, 5, 0⟩] =
      some { pressure := pressureOf [(150 : ℚ)] } ∧
    ∃ fv, extract_graphological_features [(100 : ℚ)]
        [⟨0, 0, 20, 20, 0⟩, ⟨30, 2, 20, 20, 0⟩] = some fv ∧ fv.line_spacing = 0 :=
  ⟨(C6_degenerate_inputs_yield_defaults [] []).2.1 rfl,
   (C6_degenerate_inputs_yield_defaults [(150 : ℚ)] [⟨0, 0, 5, 5, 0⟩]).2.2.1
     (by decide) (by decide),
   (C6_degenerate_inputs_yield_defaults [(100 : ℚ)]
       [⟨0, 0, 20, 20, 0⟩, ⟨30, 2, 20, 20, 0⟩]).2.2.2.2 (by decide)
     (by norm_num [keptLines, wordBoxes, sizeFiltered, sortBoxes, groupLines,
       groupLinesAux, sortByX, List.insertionSort, List.orderedInsert,
       RawWord.toBox, ptsYOfLine, List.filterMap_cons, abs])⟩

/-- Claim C7: a mask whose only word box has width 60 and height 60 yields
letter_size 60, word_spacing 0 (no adjacent pair), left_margin equal to that
box's x, baseline_slope 0 (fewer than 2 words in the line) and line_spacing 0
(fewer than 2 qualifying lines). -/
theorem C7_single_word_box (x y a : ℚ) (ink : List ℚ) (hink : ink ≠ []) :
    ∃ p s, extract_graphological_features ink [⟨x, y, 60, 60, a⟩] = some
      { pressure := p, letter_size := 60, slant := s, baseline_slope := 0,
        word_spacing := 0, line_spacing := 0, left_margin := x } := by
  refine ⟨pressureOf ink, gmedian (wordAngles [⟨x, y, 60, 60, a⟩]), ?_⟩
  rw [extract_eq_some]
  have hie : ¬(ink.isEmpty = true) := by simpa [List.isEmpty_iff] using hink
  have hsf : sizeFiltered [⟨x, y, 60, 60, a⟩] = [⟨x, y, 60, 60, a⟩] := by
    norm_num [sizeFiltered]
  have hwb : wordBoxes [⟨x, y, 60, 60, a⟩] = [⟨x, y, 60, 60⟩] := by
    simp [wordBoxes, hsf, sortBoxes, List.insertionSort, RawWord.toBox]
  have hkl : keptLines [⟨x, y, 60, 60, a⟩] = [[⟨x, y, 60, 60⟩]] := by
    unfold keptLines
    rw [hwb]
    norm_num [groupLines, groupLinesAux, sortByX, List.insertionSort,
      List.orderedInsert]
  unfold extractVal
  rw [if_neg hie, hwb, hkl, hsf]
  norm_num [gapsOfLine, slopeOfLine, ptsYOfLine, gmedian, median0, diffs,
    List.insertionSort, List.orderedInsert, List.filterMap_cons, List.getD]

theorem C7_single_word_box_witness :
    ∃ p s, extract_graphological_features [(200 : ℚ)] [⟨12, 5, 60, 60, 0⟩] = some
      { pressure := p, letter_size := 60, slant := s, baseline_slope := 0,
        word_spacing := 0, line_spacing := 0, left_margin := 12 } :=
  C7_single_word_box 12 5 0 [(200 : ℚ)] (by decide)

/-- Claim C8: slant normalization.  The raw minimum-area-rectangle angle has
90 added exactly when the box is taller than wide; an angle enters the slant
sample only if its absolute value after adjustment is strictly below 45, and
only from a size-retained box; whenever any angle passes the filter the slant
feature is the median of the retained angles and lies strictly inside
(-45, 45); otherwise slant is 0.  (The `ink ≠ []` hypothesis keeps the source
from taking its no-contours early return.) -/
theorem C8_slant_normalization (ink : List ℚ) (rw : List RawWord) (fv : FeatureVector)
    (hink : ink ≠ []) (hex : extract_graphological_features ink rw = some fv) :
    (∀ c : RawWord, (c.w < c.h → adjAngle c = 90 + c.rawAngle) ∧
      (¬c.w < c.h → adjAngle c = c.rawAngle)) ∧
    (∀ a ∈ wordAngles rw, |a| < 45 ∧ ∃ c ∈ sizeFiltered rw, a = adjAngle c) ∧
    (wordAngles rw ≠ [] → fv.slant = median0 (wordAngles rw) ∧ |fv.slant| < 45) ∧
    (wordAngles rw = [] → fv.slant = 0) := by
  have hall : ∀ a ∈ wordAngles rw, |a| < 45 ∧ ∃ c ∈ sizeFiltered rw, a = adjAngle c := by
    intro a ha
    unfold wordAngles at ha
    rcases List.mem_filter.mp ha with ⟨ham, hlt⟩
    rcases List.mem_map.mp ham with ⟨c, hc, rfl⟩
    exact ⟨of_decide_eq_true hlt, c, hc, rfl⟩
  have hfv : fv = extractVal ink rw := by
    rw [extract_eq_some] at hex
    exact (Option.some_inj.mp hex).symm
  have hie : ¬(ink.isEmpty = true) := by simpa [List.isEmpty_iff] using hink
  have hslant : fv.slant = gmedian (wordAngles rw) := by
    rw [hfv]
    unfold extractVal
    rw [if_neg hie]
    by_cases hbb : (wordBoxes rw).isEmpty
    · rw [if_pos hbb]
    · rw [if_neg hbb]
  refine ⟨?_, hall, ?_, ?_⟩
  · intro c
    constructor <;> intro h <;> simp [adjAngle, h]
  · intro hne
    rw [hslant]
    unfold gmedian
    rw [if_neg (by simpa [List.isEmpty_iff] using hne)]
    exact ⟨rfl, median0_abs_lt hne fun a ha => (hall a ha).1⟩
  · intro he
    rw [hslant, he]
    rfl

theorem C8_slant_normalization_witness :
    |(extractVal [(100 : ℚ)] [⟨0, 0, 20, 30, -80⟩]).slant| < 45 :=
  ((C8_slant_normalization [(100 : ℚ)] [⟨0, 0, 20, 30, -80⟩] _ (by decide)
      (extract_eq_some _ _)).2.2.1
    (by norm_num [wordAngles, sizeFiltered, adjAngle])).2

end InkSight
